import Mathlib

/-!
# Verification of the carpet-demo measurement-mat generator

Shallow embedding of the three source files of the repository
(`src/aruco.js`, the `MatGenerator` class, and `config.js`) and proofs
settling the frozen claims C1-C10 about them.

JavaScript numbers are IEEE-754 binary64 values; every such value is a
rational number, so we model them as `ℚ`.  Where a claim's truth is
sensitive to floating-point rounding (the tick-placement loops and the
canvas dimensions) we model the arithmetic exactly: `rnd` below is
round-to-nearest, ties-to-even at 53 significant bits, which is the
binary64 rounding of every operation in the normal range (no overflow
or subnormals occur in any computation of this program).  Where a claim
is the idealized functional contract over the reals (the coordinate
transform), the embedding uses exact rational arithmetic, as the claim
itself does.
-/

attribute [local semireducible] Rat.add Rat.mul Rat.inv Rat.sub Rat.ofScientific

set_option maxRecDepth 100000

namespace CarpetDemo

/-! ## Binary64 rounding model -/

/-- Round a nonnegative rational to an integer, ties to even
(the significand-rounding step of IEEE round-to-nearest-even). -/
def rne (m : ℚ) : ℤ :=
  if m - ⌊m⌋ < 1/2 then ⌊m⌋
  else if (1:ℚ)/2 < m - ⌊m⌋ then ⌊m⌋ + 1
  else if ⌊m⌋ % 2 = 0 then ⌊m⌋ else ⌊m⌋ + 1

/-- The rational `n * 2^e`. -/
def dyadic (n : ℤ) (e : ℤ) : ℚ :=
  if 0 ≤ e then Rat.divInt (n * 2 ^ e.toNat) 1 else Rat.divInt n (2 ^ (-e).toNat)

/-- Double the significand (lowering the exponent) until it reaches `2^52`.
Fueled structural recursion; the invariant is `value = m * 2^e`. -/
def normUp : ℕ → ℚ × ℤ → ℚ × ℤ
  | 0, p => p
  | fuel+1, (m, e) => if m < 4503599627370496 then normUp fuel (2 * m, e - 1) else (m, e)

/-- Halve the significand (raising the exponent) until it is below `2^53`. -/
def normDown : ℕ → ℚ × ℤ → ℚ × ℤ
  | 0, p => p
  | fuel+1, (m, e) => if 9007199254740992 ≤ m then normDown fuel (m / 2, e + 1) else (m, e)

/-- Round a positive rational to the nearest binary64 value:
normalize the significand into `[2^52, 2^53)`, round it to an integer
ties-to-even, and rescale. -/
def rndPos (a : ℚ) : ℚ :=
  let p := normDown 1200 (normUp 1200 (a, 0))
  dyadic (rne p.1) p.2

/-- Round a rational to the nearest binary64 value (round-to-nearest-even),
valid throughout the normal range, which covers every number this
program computes. -/
def rnd (q : ℚ) : ℚ :=
  if q = 0 then 0 else if q < 0 then -rndPos (-q) else rndPos q

/-- Binary64 addition: exact sum, then rounding. -/
def fadd (x y : ℚ) : ℚ := rnd (x + y)

/-- Binary64 multiplication: exact product, then rounding. -/
def fmul (x y : ℚ) : ℚ := rnd (x * y)

/-- Truncation toward zero of a rational, as a mathematical integer. -/
def qtrunc (q : ℚ) : ℤ := if 0 ≤ q then ⌊q⌋ else ⌈q⌉

/-- The JavaScript `%` operator on numbers: the exact remainder
`x - y * trunc(x / y)` (it carries the sign of the dividend and incurs
no rounding error). -/
def jsRem (x y : ℚ) : ℚ := x - y * qtrunc (x / y)

/-- JavaScript `Math.round`: round half toward positive infinity. -/
def jsRound (x : ℚ) : ℤ := ⌊x + 1/2⌋

/-- The WebIDL `ToUint32` conversion applied when a number is assigned to
`canvas.width` / `canvas.height`: truncate toward zero, reduce mod `2^32`. -/
def toUint32 (x : ℚ) : ℤ := (qtrunc x) % 4294967296

/-! ## `src/aruco.js`: fiducial dictionary and marker renderer -/

/-- The `ARUCO_DICT_4X4_50` table of `src/aruco.js`: twelve fixed 4x4
binary matrices, IDs 0 through 11 in order. -/
def ARUCO_DICT_4X4_50 : List (List (List ℕ)) :=
  [ -- ID 0
    [[0, 0, 0, 0],
     [0, 1, 0, 1],
     [1, 1, 0, 0],
     [0, 1, 1, 1]],
    -- ID 1
    [[1, 0, 0, 1],
     [0, 1, 0, 1],
     [1, 0, 0, 0],
     [0, 1, 0, 1]],
    -- ID 2
    [[1, 1, 0, 0],
     [0, 0, 1, 1],
     [1, 0, 0, 1],
     [1, 0, 1, 0]],
    -- ID 3
    [[0, 1, 1, 0],
     [0, 0, 1, 1],
     [1, 1, 0, 1],
     [1, 0, 0, 0]],
    -- ID 4
    [[0, 0, 1, 1],
     [1, 1, 0, 0],
     [0, 1, 1, 0],
     [1, 1, 0, 1]],
    -- ID 5
    [[1, 0, 1, 0],
     [1, 1, 0, 0],
     [0, 0, 1, 0],
     [1, 1, 1, 1]],
    -- ID 6
    [[1, 1, 1, 1],
     [0, 0, 0, 1],
     [0, 0, 0, 1],
     [0, 0, 0, 0]],
    -- ID 7
    [[0, 1, 0, 1],
     [0, 0, 0, 1],
     [0, 1, 0, 1],
     [0, 0, 1, 0]],
    -- ID 8 (the source comments designate it for the 0m position)
    [[0, 0, 0, 1],
     [1, 0, 1, 0],
     [1, 1, 1, 0],
     [1, 0, 0, 1]],
    -- ID 9 (designated for the 1m position)
    [[1, 0, 0, 0],
     [1, 0, 1, 0],
     [1, 0, 1, 0],
     [1, 0, 1, 1]],
    -- ID 10 (designated for the 1.8m position)
    [[0, 1, 1, 1],
     [1, 1, 1, 0],
     [0, 0, 1, 1],
     [0, 1, 0, 0]],
    -- ID 11 (designated for the 2.4m position)
    [[1, 1, 1, 0],
     [1, 1, 1, 0],
     [0, 1, 1, 1],
     [0, 0, 0, 0]] ]

/-- JavaScript `%` on integer-valued numbers: truncated remainder
(sign of the dividend). -/
def jsModInt (a b : ℤ) : ℤ := Int.tmod a b

/-- JavaScript array indexing `l[i]`: the element when `0 ≤ i < length`,
`undefined` (here `none`) otherwise. -/
def jsArrayGet (l : List α) (i : ℤ) : Option α :=
  if 0 ≤ i then l.get? i.toNat else none

/-- The bit test `pattern[row][col] === 1` of the data-cell loop.
Out-of-range access yields `undefined`, which is `=== 1`-false, exactly
as `getD _ _ 0` is. -/
def patternBit (pattern : List (List ℕ)) (row col : ℕ) : Bool :=
  (pattern.getD row []).getD col 0 == 1

/-- An axis-aligned rectangle `(x, y, w, h)`, as passed to `ctx.fillRect`. -/
structure Rect where
  x : ℚ
  y : ℚ
  w : ℚ
  h : ℚ

/-- Membership of a point in the region painted by `fillRect`:
the half-open box `[x, x+w) x [y, y+h)`. -/
def Rect.contains (r : Rect) (p : ℚ × ℚ) : Prop :=
  r.x ≤ p.1 ∧ p.1 < r.x + r.w ∧ r.y ≤ p.2 ∧ p.2 < r.y + r.h

instance (r : Rect) (p : ℚ × ℚ) : Decidable (r.contains p) :=
  inferInstanceAs (Decidable (_ ∧ _ ∧ _ ∧ _))

/-- Colors: `false` is light (`#FFFFFF`), `true` is dark (`#000000`). -/
abbrev Color := Bool

/-- Sequential canvas painting: later `fillRect` calls overwrite earlier
ones, so fold the operation list left to right, each contained rectangle
replacing the accumulated color. -/
def paintFrom (ops : List (Rect × Color)) (init : Color) (p : ℚ × ℚ) : Color :=
  ops.foldl (fun acc rc => if rc.1.contains p then rc.2 else acc) init

/-- The rectangle of data cell `(row, col)`: the `fillRect` at
`(borderSize + cellSize*(col+1), borderSize + cellSize*(row+1))` of size
`cellSize x cellSize`, with `cellSize = size / 6`. -/
def cellRect (size borderSize : ℚ) (row col : ℕ) : Rect :=
  ⟨borderSize + size / 6 * ((col : ℚ) + 1), borderSize + size / 6 * ((row : ℚ) + 1),
   size / 6, size / 6⟩

/-- The data-cell double loop of `createArucoMarker`: sixteen cells in
row-major order, each filled dark or light by the pattern bit. -/
def dataCellOps (pattern : List (List ℕ)) (size borderSize : ℚ) : List (Rect × Color) :=
  (List.range 4).flatMap (fun row => (List.range 4).map (fun col =>
    (cellRect size borderSize row col, patternBit pattern row col)))

/-- The ordered `fillRect` calls of `createArucoMarker` for a given
pattern: white background over the whole canvas, black core square,
white interior (`cellSize = size / 6` inlined), then the sixteen data
cells in row-major order. -/
def markerOps (pattern : List (List ℕ)) (size borderSize : ℚ) : List (Rect × Color) :=
  [(⟨0, 0, size + borderSize * 2, size + borderSize * 2⟩, false),
   (⟨borderSize, borderSize, size, size⟩, true),
   (⟨borderSize + size / 6, borderSize + size / 6,
     size - size / 6 * 2, size - size / 6 * 2⟩, false)] ++
  dataCellOps pattern size borderSize

/-- The finished marker canvas: its side length and its color at each point. -/
structure Marker where
  side : ℚ
  img : ℚ × ℚ → Color

/-- `createArucoMarker(id, size, borderSize)` of `src/aruco.js`.
The pattern lookup is `ARUCO_DICT_4X4_50[id % ARUCO_DICT_4X4_50.length]`;
when the index is negative the lookup is `undefined` and the data-cell
loop faults reading `pattern[row]`, modelled by `none`. -/
def createArucoMarker (id : ℤ) (size borderSize : ℚ) : Option Marker :=
  (jsArrayGet ARUCO_DICT_4X4_50 (jsModInt id ARUCO_DICT_4X4_50.length)).map
    (fun pattern =>
      { side := size + borderSize * 2
        img := paintFrom (markerOps pattern size borderSize) false })

/-- A transverse side of the mat. In the canvas the `left` markers are
drawn along the top edge and the `right` markers along the bottom edge. -/
inductive Side where
  | left : Side
  | right : Side
deriving DecidableEq, Repr

/-- One entry of the `ARUCO_POSITIONS` configuration table of
`src/aruco.js` (the cosmetic `label` string is omitted). -/
structure ArucoPosEntry where
  id : ℤ
  position : ℚ
  side : Side
deriving DecidableEq, Repr

/-- The `ARUCO_POSITIONS` table of `src/aruco.js`: the declared marker
placement, IDs 8-11 on the left side and 0-3 on the right side. -/
def ARUCO_POSITIONS : List ArucoPosEntry :=
  [⟨8, 0, .left⟩, ⟨9, 1.0, .left⟩, ⟨10, 1.8, .left⟩, ⟨11, 2.4, .left⟩,
   ⟨0, 0, .right⟩, ⟨1, 1.0, .right⟩, ⟨2, 1.8, .right⟩, ⟨3, 2.4, .right⟩]

/-! Claim-side regions of the marker patch (the geometry the spec
describes), for comparison with the painted image. -/

/-- The quiet ring: a point of the patch (side `size + 2*borderSize`)
lying within `borderSize` of one of its edges. -/
def inQuietRing (size borderSize : ℚ) (p : ℚ × ℚ) : Prop :=
  (0 ≤ p.1 ∧ p.1 < size + 2 * borderSize ∧ 0 ≤ p.2 ∧ p.2 < size + 2 * borderSize) ∧
  (p.1 < borderSize ∨ borderSize + size ≤ p.1 ∨
   p.2 < borderSize ∨ borderSize + size ≤ p.2)

/-- The dark border ring: a point of the core square lying within its
outermost sixth (one cell width) on some side. -/
def inBorderRing (size borderSize : ℚ) (p : ℚ × ℚ) : Prop :=
  (borderSize ≤ p.1 ∧ p.1 < borderSize + size ∧
   borderSize ≤ p.2 ∧ p.2 < borderSize + size) ∧
  (p.1 < borderSize + size / 6 ∨ borderSize + 5 * (size / 6) ≤ p.1 ∨
   p.2 < borderSize + size / 6 ∨ borderSize + 5 * (size / 6) ≤ p.2)

/-- A point of interior data cell `(row, col)` of the 4x4 grid. -/
def inDataCell (size borderSize : ℚ) (row col : ℕ) (p : ℚ × ℚ) : Prop :=
  (cellRect size borderSize row col).contains p

/-! ## `config.js`: MAT_CONFIG (the fields the claims involve; cosmetic
fields - colors, names, labels, render settings - are omitted) -/

/-- One zone of `MAT_CONFIG.zones`. The source field `end` is a reserved
word in Lean and is rendered `endPos`. -/
structure ZoneSpec where
  start : ℚ
  endPos : ℚ
deriving DecidableEq, Repr

/-- The metric configuration record (`MAT_CONFIG` shape): total
dimensions, the four zone intervals, and the three tick-tier spacings.
All values are the binary64 numbers denoted by the source literals. -/
structure MatConfig where
  totalLength : ℚ
  totalWidth : ℚ
  takeoffZone : ZoneSpec
  flightZone : ZoneSpec
  landingZone : ZoneSpec
  extendedZone : ZoneSpec
  fineSpacing : ℚ
  mediumSpacing : ℚ
  majorSpacing : ℚ
deriving DecidableEq, Repr

/-- The `MAT_CONFIG` literal of `config.js`. -/
def MAT_CONFIG : MatConfig where
  totalLength := 3
  totalWidth := rnd 0.9
  takeoffZone := ⟨rnd (-0.3), 0⟩
  flightZone := ⟨0, rnd 1.4⟩
  landingZone := ⟨rnd 1.4, rnd 2.8⟩
  extendedZone := ⟨rnd 2.8, 3⟩
  fineSpacing := rnd 0.01
  mediumSpacing := rnd 0.1
  majorSpacing := 1

/-! ## `MatGenerator`: coordinate transform -/

/-- `meterToPixel(meter) = meter * this.pixelsPerMeter`.  The claims about
the transform state its idealized contract over the reals, so this
definition (and `getX`) uses exact rational arithmetic; every binary64
input is such a rational. -/
def meterToPixel (ppm meter : ℚ) : ℚ := meter * ppm

/-- `getX(position) = meterToPixel(position + 0.3)`: longitudinal metric
position to pixel column, shifted by the 0.3 m takeoff margin. -/
def getX (ppm position : ℚ) : ℚ := meterToPixel ppm (position + 0.3)

/-! ## `MatGenerator.initCanvas`: surface dimensions.
Here the floating-point rounding and the `ToUint32` canvas-assignment
conversion are modelled exactly, because the claims about the
dimensions are sensitive to both. -/

/-- `canvas.width = (this.config.totalLength + 0.3) * this.pixelsPerMeter`
(no rounding in the source; the assignment itself truncates). -/
def canvasWidthPx (cfg : MatConfig) (ppm : ℚ) : ℤ :=
  toUint32 (fmul (fadd cfg.totalLength (rnd 0.3)) ppm)

/-- `canvas.height = this.config.totalWidth * this.pixelsPerMeter`. -/
def canvasHeightPx (cfg : MatConfig) (ppm : ℚ) : ℤ :=
  toUint32 (fmul cfg.totalWidth ppm)

/-- Modelled from the spec: the spec's dimension formula
`round((totalLength+0.3)*pixelsPerMeter) x round(totalWidth*pixelsPerMeter)`
with exact real arithmetic and mathematical rounding, for comparison
with `canvasWidthPx`/`canvasHeightPx`. -/
def specDims (cfg : MatConfig) (ppm : ℚ) : ℤ × ℤ :=
  (round ((cfg.totalLength + 0.3) * ppm), round (cfg.totalWidth * ppm))

/-! ## `MatGenerator.drawTakeoffZoneScales`: the coarse flight-zone pass -/

/-- One tick of the flight-zone loop: its (accumulated, floating-point)
metric position and whether the `(pos * 10) % 5 === 0` test selected the
taller 0.25 m line (`false` means the 0.15 m line). -/
structure TakeoffTick where
  pos : ℚ
  tall : Bool
deriving DecidableEq, Repr

/-- The height test of the flight-zone loop: `(pos * 10) % 5 === 0`,
computed in binary64. -/
def takeoffTall (pos : ℚ) : Bool := jsRem (fmul pos 10) 5 == 0

/-- The loop `for (let pos = 0.1; pos <= 1.4; pos += 0.1)` of
`drawTakeoffZoneScales`, with binary64 accumulation.  Fueled structural
recursion; the fuel is ample (the loop runs 13 times). -/
def takeoffLoop : ℕ → ℚ → List TakeoffTick
  | 0, _ => []
  | fuel+1, pos =>
    if pos ≤ rnd 1.4 then
      ⟨pos, takeoffTall pos⟩ :: takeoffLoop fuel (fadd pos (rnd 0.1))
    else []

/-- The ticks drawn by the flight-zone pass (after the full-height origin
line at position 0, which is drawn separately before the loop). -/
def takeoffTicks : List TakeoffTick := takeoffLoop 100 (rnd 0.1)

/-! ## `MatGenerator.drawPrecisionZoneScales`: the fine pass -/

/-- The tier selection of `drawPrecisionZoneScales`: the `cmValue`-based
if/else chain choosing line height and width (the meter arguments passed
to `meterToPixel`).  JavaScript `%` on integers is the truncated
remainder `jsModInt`. -/
def precisionTier (cmValue : ℤ) : ℚ × ℚ :=
  if jsModInt cmValue 100 = 0 then (0.45, 0.003)
  else if jsModInt cmValue 50 = 0 then (0.35, 0.0025)
  else if jsModInt cmValue 10 = 0 then (0.25, 0.002)
  else (0.12, 0.0012)

/-- One tick of the precision-zone loop: accumulated position,
`cmValue = Math.round(pos * 100)`, and the selected tier. -/
structure PrecisionTick where
  pos : ℚ
  cmValue : ℤ
  height : ℚ
  lineWidth : ℚ
deriving DecidableEq, Repr

/-- The loop `for (let pos = 1.4; pos <= 2.8; pos += 0.01)` of
`drawPrecisionZoneScales`, with binary64 accumulation.  Fueled
structural recursion; the fuel is ample (the loop runs 141 times). -/
def precisionLoop : ℕ → ℚ → List PrecisionTick
  | 0, _ => []
  | fuel+1, pos =>
    if pos ≤ rnd 2.8 then
      ⟨pos, jsRound (fmul pos 100),
        (precisionTier (jsRound (fmul pos 100))).1,
        (precisionTier (jsRound (fmul pos 100))).2⟩ ::
      precisionLoop fuel (fadd pos (rnd 0.01))
    else []

/-- The ticks drawn by the precision-zone pass (1 cm steps from 1.4 m). -/
def precisionTicks : List PrecisionTick := precisionLoop 1000 (rnd 1.4)

/-- Modelled from the spec: the tier table in the spec's priority order -
divisible-by-100 (longest), then divisible-by-50, then divisible-by-10 -
with each tier's height and line width. -/
def specTierRules : List (ℤ × ℚ × ℚ) :=
  [(100, 0.45, 0.003), (50, 0.35, 0.0025), (10, 0.25, 0.002)]

/-- Modelled from the spec: first-match selection over an ordered rule
list - the tie-break "a position satisfying multiple divisibility rules
uses the first matching (coarsest) tier". -/
def firstMatchingTier : List (ℤ × ℚ × ℚ) → ℤ → ℚ × ℚ
  | [], _ => (0.12, 0.0012)
  | r :: rs, cm => if r.1 ∣ cm then r.2 else firstMatchingTier rs cm

/-- Modelled from the spec: the coarsest divisibility rule the centimeter
value satisfies, checked in priority order; the finest tier otherwise. -/
def specTier (cm : ℤ) : ℚ × ℚ := firstMatchingTier specTierRules cm

/-! ## `MatGenerator.drawArucoMarkers`: fiducial placement -/

/-- One marker placement performed by `drawArucoMarkers`: metric
longitudinal position, transverse side, and the marker ID drawn there. -/
structure ArucoPlacement where
  position : ℚ
  side : Side
  id : ℤ
deriving DecidableEq, Repr

/-- The local position list `[0, 1.0, 1.8, 2.4]` of `drawArucoMarkers`. -/
def arucoDrawPositions : List ℚ := [0, 1.0, 1.8, 2.4]

/-- The placements performed by `drawArucoMarkers`: for each position, the
left (top) marker uses `id = index` and the right (bottom) marker uses
`id = index + 4`.  Note this ignores the `ARUCO_POSITIONS` table. -/
def drawArucoPlacements : List ArucoPlacement :=
  arucoDrawPositions.enum.flatMap
    (fun ip => [⟨ip.2, .left, (ip.1 : ℤ)⟩, ⟨ip.2, .right, (ip.1 : ℤ) + 4⟩])

/-! ## `MatGenerator.generate`: pass order and (absence of) validation -/

/-- The drawing passes of the generator. -/
inductive Pass where
  | background : Pass
  | takeoffZoneScales : Pass
  | precisionZoneScales : Pass
  | simplifiedLabels : Pass
  | border : Pass
  | arucoMarkers : Pass
deriving DecidableEq, Repr

/-- The pass sequence executed by `generate()`, in source order. -/
def generatePasses : List Pass :=
  [.background, .takeoffZoneScales, .precisionZoneScales,
   .simplifiedLabels, .border, .arucoMarkers]

/-- The error a validating generator would raise on a malformed
configuration.  The source never constructs such an error. -/
inductive ConfigError where
  | invalidConfig : ConfigError
deriving DecidableEq, Repr

/-- The result of a generation run: canvas dimensions and the passes that
mutated the surface. -/
structure Surface where
  width : ℤ
  height : ℤ
  passes : List Pass
deriving DecidableEq, Repr

/-- `generate()`: sizes the canvas via `initCanvas` and runs the six
drawing passes in order.  The source performs no validation whatsoever -
no configuration is rejected and no error path exists - so the embedding
is unconditionally `.ok`. -/
def generate (cfg : MatConfig) (ppm : ℚ) : Except ConfigError Surface :=
  .ok ⟨canvasWidthPx cfg ppm, canvasHeightPx cfg ppm, generatePasses⟩

/-- Modelled from the spec: a malformed configuration - some zone with
non-monotonic boundaries, or a non-positive tick spacing or total
dimension.  The source contains no corresponding check. -/
def isMalformed (cfg : MatConfig) : Prop :=
  cfg.takeoffZone.endPos < cfg.takeoffZone.start ∨
  cfg.flightZone.endPos < cfg.flightZone.start ∨
  cfg.landingZone.endPos < cfg.landingZone.start ∨
  cfg.extendedZone.endPos < cfg.extendedZone.start ∨
  cfg.fineSpacing ≤ 0 ∨ cfg.mediumSpacing ≤ 0 ∨ cfg.majorSpacing ≤ 0 ∨
  cfg.totalLength ≤ 0 ∨ cfg.totalWidth ≤ 0

instance (cfg : MatConfig) : Decidable (isMalformed cfg) :=
  inferInstanceAs (Decidable (_ ∨ _ ∨ _ ∨ _ ∨ _ ∨ _ ∨ _ ∨ _ ∨ _))

/-- A malformed configuration: the fine tick spacing is negative (and the
landing zone boundaries are reversed). -/
def badConfig : MatConfig :=
  { MAT_CONFIG with fineSpacing := rnd (-0.01), landingZone := ⟨rnd 2.8, rnd 1.4⟩ }

/-! ## Helper lemmas -/

theorem normUp_fst_nonneg (fuel : ℕ) : ∀ p : ℚ × ℤ, 0 ≤ p.1 → 0 ≤ (normUp fuel p).1 := by
  induction fuel with
  | zero => exact fun p h => h
  | succ n ih =>
    intro p h
    obtain ⟨m, e⟩ := p
    have hm : 0 ≤ m := h
    rw [normUp]
    split
    · exact ih (2 * m, e - 1) (mul_nonneg (by norm_num) hm)
    · exact h

theorem normDown_fst_nonneg (fuel : ℕ) : ∀ p : ℚ × ℤ, 0 ≤ p.1 → 0 ≤ (normDown fuel p).1 := by
  induction fuel with
  | zero => exact fun p h => h
  | succ n ih =>
    intro p h
    obtain ⟨m, e⟩ := p
    have hm : 0 ≤ m := h
    rw [normDown]
    split
    · exact ih (m / 2, e + 1) (div_nonneg hm (by norm_num))
    · exact h

theorem rne_nonneg {m : ℚ} (h : 0 ≤ m) : 0 ≤ rne m := by
  have hf : 0 ≤ ⌊m⌋ := Int.floor_nonneg.mpr h
  unfold rne
  split_ifs <;> omega

theorem dyadic_nonneg {n : ℤ} (e : ℤ) (h : 0 ≤ n) : 0 ≤ dyadic n e := by
  unfold dyadic
  split
  · exact Rat.divInt_nonneg (mul_nonneg h (pow_nonneg (by norm_num) _)) (by norm_num)
  · exact Rat.divInt_nonneg h (pow_nonneg (by norm_num) _)

theorem rndPos_nonneg (a : ℚ) (h : 0 ≤ a) : 0 ≤ rndPos a := by
  show 0 ≤ dyadic (rne (normDown 1200 (normUp 1200 (a, 0))).1)
    (normDown 1200 (normUp 1200 (a, 0))).2
  exact dyadic_nonneg _ (rne_nonneg (normDown_fst_nonneg 1200 _ (normUp_fst_nonneg 1200 _ h)))

theorem rnd_nonneg {q : ℚ} (h : 0 ≤ q) : 0 ≤ rnd q := by
  unfold rnd
  split_ifs with h0 hneg
  · exact le_refl 0
  · exact absurd hneg (not_lt.mpr h)
  · exact rndPos_nonneg q h

theorem fadd_nonneg {x y : ℚ} (hx : 0 ≤ x) (hy : 0 ≤ y) : 0 ≤ fadd x y :=
  rnd_nonneg (add_nonneg hx hy)

theorem fmul_nonneg {x y : ℚ} (hx : 0 ≤ x) (hy : 0 ≤ y) : 0 ≤ fmul x y :=
  rnd_nonneg (mul_nonneg hx hy)

theorem toUint32_eq_floor {x : ℚ} (h0 : 0 ≤ x) (hlt : x < 4294967296) :
    toUint32 x = ⌊x⌋ := by
  unfold toUint32 qtrunc
  rw [if_pos h0]
  have h1 : 0 ≤ ⌊x⌋ := Int.floor_nonneg.mpr h0
  have h2 : ⌊x⌋ < 4294967296 := Int.floor_lt.mpr (by exact_mod_cast hlt)
  omega

theorem tmod_add_self_of_nonneg {a : ℤ} (h : 0 ≤ a) :
    Int.tmod (a + 12) 12 = Int.tmod a 12 := by
  rw [Int.tmod_eq_emod (by omega) (by omega), Int.tmod_eq_emod h (by omega),
    show a + 12 = a + 12 * 1 by ring, Int.add_mul_emod_self_left]

theorem tmod_neg_of_neg_not_dvd {a : ℤ} (hneg : a < 0) (hnd : ¬(12:ℤ) ∣ a) :
    Int.tmod a 12 < 0 := by
  cases a with
  | ofNat n => exact absurd hneg (not_lt.mpr (Int.natCast_nonneg n))
  | negSucc m =>
    have e : Int.tmod (Int.negSucc m) 12 = -(((m + 1) % 12 : ℕ) : ℤ) := rfl
    have hnd' : ¬(12:ℤ) ∣ ((m:ℤ) + 1) := by
      rw [Int.negSucc_eq] at hnd
      exact fun hd => hnd (Int.dvd_neg.mpr hd)
    have hmod0 : (m + 1) % 12 ≠ 0 := by
      intro h0
      exact hnd' (by exact_mod_cast Int.natCast_dvd_natCast.mpr (Nat.dvd_of_mod_eq_zero h0))
    rw [e]
    omega

theorem precisionLoop_tier (fuel : ℕ) :
    ∀ (pos : ℚ) (t : PrecisionTick), t ∈ precisionLoop fuel pos →
      (t.height, t.lineWidth) = precisionTier t.cmValue := by
  induction fuel with
  | zero => intro pos t ht; simp [precisionLoop] at ht
  | succ n ih =>
    intro pos t ht
    rw [precisionLoop] at ht
    split at ht
    · rcases List.mem_cons.mp ht with rfl | htail
      · rfl
      · exact ih _ t htail
    · simp at ht

theorem precisionTier_eq_specTier (cm : ℤ) : precisionTier cm = specTier cm := by
  have e100 : (Int.tmod cm 100 = 0) ↔ ((100:ℤ) ∣ cm) := Int.dvd_iff_tmod_eq_zero.symm
  have e50 : (Int.tmod cm 50 = 0) ↔ ((50:ℤ) ∣ cm) := Int.dvd_iff_tmod_eq_zero.symm
  have e10 : (Int.tmod cm 10 = 0) ↔ ((10:ℤ) ∣ cm) := Int.dvd_iff_tmod_eq_zero.symm
  by_cases h1 : (100:ℤ) ∣ cm <;> by_cases h2 : (50:ℤ) ∣ cm <;> by_cases h3 : (10:ℤ) ∣ cm <;>
    simp [precisionTier, specTier, specTierRules, firstMatchingTier, jsModInt,
      e100, e50, e10, h1, h2, h3]

theorem paintFrom_of_not_contains {p : ℚ × ℚ} :
    ∀ (ops : List (Rect × Color)) (init : Color),
      (∀ op ∈ ops, ¬op.1.contains p) → paintFrom ops init p = init := by
  intro ops
  induction ops with
  | nil => intro init _; rfl
  | cons a l ih =>
    intro init h
    show paintFrom l (if a.1.contains p then a.2 else init) p = init
    rw [if_neg (h a (List.mem_cons_self a l))]
    exact ih init (fun op hop => h op (List.mem_cons_of_mem a hop))

theorem paintFrom_eq_of_mem {p : ℚ × ℚ} {b : Color} :
    ∀ (ops : List (Rect × Color)) (init : Color) (op : Rect × Color),
      op ∈ ops → op.1.contains p → op.2 = b →
      (∀ q ∈ ops, q.1.contains p → q.2 = b) →
      paintFrom ops init p = b := by
  intro ops
  induction ops with
  | nil => intro init op hmem; exact absurd hmem (List.not_mem_nil op)
  | cons a l ih =>
    intro init op hmem hc hb hall
    show paintFrom l (if a.1.contains p then a.2 else init) p = b
    rcases List.mem_cons.mp hmem with rfl | hmemtail
    · by_cases hins : ∃ q ∈ l, q.1.contains p
      · obtain ⟨q, hq, hqc⟩ := hins
        exact ih _ q hq hqc (hall q (List.mem_cons_of_mem op hq) hqc)
          (fun r hr hrc => hall r (List.mem_cons_of_mem op hr) hrc)
      · push_neg at hins
        rw [paintFrom_of_not_contains l _ hins, if_pos hc, hb]
    · exact ih _ op hmemtail hc hb
        (fun r hr hrc => hall r (List.mem_cons_of_mem a hr) hrc)

theorem mem_dataCellOps {pattern : List (List ℕ)} {size borderSize : ℚ}
    {q : Rect × Color} :
    q ∈ dataCellOps pattern size borderSize ↔
      ∃ row col : ℕ, row < 4 ∧ col < 4 ∧
        q = (cellRect size borderSize row col, patternBit pattern row col) := by
  unfold dataCellOps
  simp only [List.mem_flatMap, List.mem_map, List.mem_range]
  constructor
  · rintro ⟨row, hrow, col, hcol, rfl⟩
    exact ⟨row, col, hrow, hcol, rfl⟩
  · rintro ⟨row, col, hrow, hcol, rfl⟩
    exact ⟨row, hrow, col, hcol, rfl⟩

theorem cell_bounds_aux {c B x : ℚ} (hc : 0 < c) {k : ℕ} (hk : k < 4)
    (h1 : B + c * ((k:ℚ) + 1) ≤ x) (h2 : x < B + c * ((k:ℚ) + 1) + c) :
    B + c ≤ x ∧ x < B + 5 * c := by
  have hk0 : (0:ℚ) ≤ (k:ℚ) := Nat.cast_nonneg k
  have hk3 : (k:ℚ) ≤ 3 := by exact_mod_cast Nat.lt_succ_iff.mp hk
  have l1 : c * 1 ≤ c * ((k:ℚ) + 1) := mul_le_mul_of_nonneg_left (by linarith) hc.le
  have l2 : c * ((k:ℚ) + 2) ≤ c * 5 := mul_le_mul_of_nonneg_left (by linarith) hc.le
  have e1 : c * 1 = c := mul_one c
  have e2 : c * ((k:ℚ) + 2) = c * ((k:ℚ) + 1) + c := by ring
  have e3 : c * 5 = 5 * c := by ring
  constructor <;> linarith

theorem cell_index_inj {c B x : ℚ} (hc : 0 < c) {k1 k2 : ℕ}
    (a1 : B + c * ((k1:ℚ) + 1) ≤ x) (a2 : x < B + c * ((k1:ℚ) + 1) + c)
    (b1 : B + c * ((k2:ℚ) + 1) ≤ x) (b2 : x < B + c * ((k2:ℚ) + 1) + c) :
    k1 = k2 := by
  have h1 : c * ((k1:ℚ) + 1) < c * ((k2:ℚ) + 2) := by
    have e : c * ((k2:ℚ) + 1) + c = c * ((k2:ℚ) + 2) := by ring
    linarith
  have h2 : c * ((k2:ℚ) + 1) < c * ((k1:ℚ) + 2) := by
    have e : c * ((k1:ℚ) + 1) + c = c * ((k1:ℚ) + 2) := by ring
    linarith
  have n1 : k1 < k2 + 1 := by
    have := lt_of_mul_lt_mul_left h1 hc.le
    exact_mod_cast (by linarith : ((k1:ℚ)) < ((k2:ℚ) + 1))
  have n2 : k2 < k1 + 1 := by
    have := lt_of_mul_lt_mul_left h2 hc.le
    exact_mod_cast (by linarith : ((k2:ℚ)) < ((k1:ℚ) + 1))
  omega

theorem cellRect_contains_bounds {size borderSize : ℚ} (hS : 0 < size) {row col : ℕ}
    (hrow : row < 4) (hcol : col < 4) {p : ℚ × ℚ}
    (hp : (cellRect size borderSize row col).contains p) :
    (borderSize + size / 6 ≤ p.1 ∧ p.1 < borderSize + 5 * (size / 6)) ∧
    (borderSize + size / 6 ≤ p.2 ∧ p.2 < borderSize + 5 * (size / 6)) := by
  obtain ⟨a1, a2, a3, a4⟩ := hp
  have hc : 0 < size / 6 := by positivity
  exact ⟨cell_bounds_aux hc hcol a1 a2, cell_bounds_aux hc hrow a3 a4⟩

theorem cellRect_inj {size borderSize : ℚ} (hS : 0 < size) {r1 c1 r2 c2 : ℕ} {p : ℚ × ℚ}
    (h1 : (cellRect size borderSize r1 c1).contains p)
    (h2 : (cellRect size borderSize r2 c2).contains p) :
    r1 = r2 ∧ c1 = c2 := by
  obtain ⟨a1, a2, a3, a4⟩ := h1
  obtain ⟨b1, b2, b3, b4⟩ := h2
  have hc : 0 < size / 6 := by positivity
  exact ⟨cell_index_inj hc a3 a4 b3 b4, cell_index_inj hc a1 a2 b1 b2⟩

/-! ## The claims -/

/-- C1: with the reference configuration and `pixelsPerMeter = 1200` the
surface is 3960x1080 px and exactly 8 fiducials are placed, at the four
longitudinal positions 0, 1.0, 1.8, 2.4 on both sides - but the IDs the
drawing pass uses are 0-3 (left/top) and 4-7 (right/bottom), not the
8-11 / 0-3 assignment declared by `ARUCO_POSITIONS` and by the
dictionary's own comments, which the claim (and the spec) state. -/
theorem referenceGeneration_eval :
    canvasWidthPx MAT_CONFIG 1200 = 3960 ∧
    canvasHeightPx MAT_CONFIG 1200 = 1080 ∧
    drawArucoPlacements.length = 8 ∧
    drawArucoPlacements.map (fun p => p.position) = [0, 0, 1.0, 1.0, 1.8, 1.8, 2.4, 2.4] ∧
    (drawArucoPlacements.filter (fun p => p.side == Side.left)).map (fun p => p.id) =
      [0, 1, 2, 3] ∧
    (drawArucoPlacements.filter (fun p => p.side == Side.right)).map (fun p => p.id) =
      [4, 5, 6, 7] ∧
    (ARUCO_POSITIONS.filter (fun e => e.side == Side.left)).map (fun e => e.id) =
      [8, 9, 10, 11] ∧
    (ARUCO_POSITIONS.filter (fun e => e.side == Side.right)).map (fun e => e.id) =
      [0, 1, 2, 3] ∧
    drawArucoPlacements.all (fun p => decide (p.id < 8)) = true := by
  decide

/-- C2: every tick drawn by the precision-zone pass gets the tier that is
the coarsest divisibility rule its integer centimeter value satisfies,
checked in the spec's priority order 100 > 50 > 10 > else; the selection
is a pure function of that centimeter value. -/
theorem precisionTick_tier_coarsest (t : PrecisionTick) (ht : t ∈ precisionTicks) :
    (t.height, t.lineWidth) = specTier t.cmValue := by
  rw [precisionLoop_tier 1000 (rnd 1.4) t ht, precisionTier_eq_specTier]

theorem precisionTick_tier_coarsest_witness :
    (⟨rnd 1.4, 140, 0.25, 0.002⟩ : PrecisionTick) ∈ precisionTicks ∧
    ((0.25 : ℚ), (0.002 : ℚ)) = specTier 140 :=
  ⟨by decide, precisionTick_tier_coarsest ⟨rnd 1.4, 140, 0.25, 0.002⟩ (by decide)⟩

/-- C3 counterexample: for the negative id `-1` the encoder does not wrap
around - `createArucoMarker(-1, 6, 0)` faults (models as `none`) while
`createArucoMarker(-1 + 12, 6, 0)` succeeds, so the two are not
pixel-identical; the claim's "every integer id" fails. -/
theorem marker_wrap_fails_at_neg_one :
    createArucoMarker (-1) 6 0 ≠ createArucoMarker (-1 + 12) 6 0 := by
  intro h
  have h1 : (createArucoMarker (-1) 6 0).isSome = (createArucoMarker (-1 + 12) 6 0).isSome := by
    rw [h]
  rw [show (createArucoMarker (-1) 6 0).isSome = false from rfl,
    show (createArucoMarker (-1 + 12) 6 0).isSome = true from rfl] at h1
  exact Bool.noConfusion h1

/-- C3 (amended to nonnegative ids): for every integer `id ≥ 0` the
encoder reduces the id modulo the dictionary size 12 without error, and
`createArucoMarker(id + 12, S, B)` is pixel-identical to
`createArucoMarker(id, S, B)`. -/
theorem marker_wrap_nonneg (id : ℤ) (S B : ℚ) (hid : 0 ≤ id) :
    createArucoMarker (id + 12) S B = createArucoMarker id S B ∧
    (createArucoMarker id S B).isSome = true := by
  have hlen : ((ARUCO_DICT_4X4_50.length : ℕ) : ℤ) = 12 := rfl
  constructor
  · unfold createArucoMarker jsModInt
    rw [hlen, tmod_add_self_of_nonneg hid]
  · unfold createArucoMarker jsArrayGet jsModInt
    rw [hlen]
    have h0 : 0 ≤ Int.tmod id 12 := Int.tmod_nonneg _ hid
    have h12 : Int.tmod id 12 < 12 := Int.tmod_lt_of_pos id (by omega)
    rw [if_pos h0]
    have hlt : (Int.tmod id 12).toNat < ARUCO_DICT_4X4_50.length := by
      have hl : ARUCO_DICT_4X4_50.length = 12 := rfl
      omega
    rw [List.get?_eq_get hlt]
    rfl

theorem marker_wrap_nonneg_witness :
    (0:ℤ) ≤ 5 ∧
    (createArucoMarker (5 + 12) 6 0 = createArucoMarker 5 6 0 ∧
      (createArucoMarker 5 6 0).isSome = true) :=
  ⟨by decide, marker_wrap_nonneg 5 6 0 (by decide)⟩

/-- C5: the coordinate transform is affine-linear - column differences
equal `toPixels` of position differences, `meterToPixel` is linear with
no offset, and `getX p = meterToPixel (p + 0.3)`; both are total pure
functions (negative positions included). -/
theorem transform_affine (ppm : ℚ) (hppm : 0 < ppm) (p1 p2 m : ℚ) :
    getX ppm p2 - getX ppm p1 = meterToPixel ppm (p2 - p1) ∧
    meterToPixel ppm m = m * ppm ∧
    getX ppm p1 = meterToPixel ppm (p1 + 0.3) := by
  refine ⟨?_, rfl, rfl⟩
  unfold getX meterToPixel
  ring

theorem transform_affine_witness :
    (0:ℚ) < 1200 ∧
    (getX 1200 2 - getX 1200 (-0.5) = meterToPixel 1200 (2 - (-0.5)) ∧
      meterToPixel 1200 7 = 7 * 1200 ∧
      getX 1200 (-0.5) = meterToPixel 1200 (-0.5 + 0.3)) :=
  ⟨by decide, transform_affine 1200 (by decide) (-0.5) 2 7⟩

/-- C6: evaluation of the flight-zone tick pass exposes the
floating-point divergence: only 13 ticks are drawn (the 1.4 m tick is
skipped because the accumulated position overshoots to
1.4000000000000001), and of the ticks at centimeter values
10..130 only the 0.5 m tick passes the `(pos*10)%5 === 0` test - the
1.0 m tick (accumulated position 0.9999999999999999) is drawn at the
shorter 0.15 m length, contradicting the every-5th-tick-taller rule. -/
theorem takeoffTicks_eval :
    takeoffTicks.length = 13 ∧
    takeoffTicks.map (fun t => jsRound (fmul t.pos 100)) =
      [10, 20, 30, 40, 50, 60, 70, 80, 90, 100, 110, 120, 130] ∧
    takeoffTicks.map (fun t => t.tall) =
      [false, false, false, false, true, false, false, false,
       false, false, false, false, false] := by
  decide

/-- C7 counterexample: at `pixelsPerMeter = 1` the canvas height is the
truncation `0`, not the claim's `round(0.9 * 1) = 1`. -/
theorem canvasDims_not_round_at_ppm_one :
    (canvasWidthPx MAT_CONFIG 1, canvasHeightPx MAT_CONFIG 1) ≠ specDims MAT_CONFIG 1 ∧
    canvasHeightPx MAT_CONFIG 1 = 0 ∧ specDims MAT_CONFIG 1 = (3, 1) := by
  refine ⟨by decide, by decide, by decide⟩

/-- C7 (amended): the source applies no rounding - the canvas dimensions
are the `ToUint32` truncations of the floating-point products
`(totalLength + 0.3) * ppm` and `totalWidth * ppm` (equal to their
floors for the nonnegative, in-range values). -/
theorem canvasDims_truncate (cfg : MatConfig) (ppm : ℚ) (hppm : 0 < ppm)
    (hL : 0 ≤ cfg.totalLength) (hW : 0 ≤ cfg.totalWidth)
    (hwlt : fmul (fadd cfg.totalLength (rnd 0.3)) ppm < 4294967296)
    (hhlt : fmul cfg.totalWidth ppm < 4294967296) :
    canvasWidthPx cfg ppm = ⌊fmul (fadd cfg.totalLength (rnd 0.3)) ppm⌋ ∧
    canvasHeightPx cfg ppm = ⌊fmul cfg.totalWidth ppm⌋ := by
  have h03 : 0 ≤ rnd (0.3:ℚ) := rnd_nonneg (by norm_num)
  exact ⟨toUint32_eq_floor (fmul_nonneg (fadd_nonneg hL h03) (le_of_lt hppm)) hwlt,
    toUint32_eq_floor (fmul_nonneg hW (le_of_lt hppm)) hhlt⟩

theorem canvasDims_truncate_witness :
    ((0:ℚ) < 1200 ∧ (0:ℚ) ≤ MAT_CONFIG.totalLength ∧ (0:ℚ) ≤ MAT_CONFIG.totalWidth ∧
      fmul (fadd MAT_CONFIG.totalLength (rnd 0.3)) 1200 < 4294967296 ∧
      fmul MAT_CONFIG.totalWidth 1200 < 4294967296) ∧
    (canvasWidthPx MAT_CONFIG 1200 = ⌊fmul (fadd MAT_CONFIG.totalLength (rnd 0.3)) 1200⌋ ∧
      canvasHeightPx MAT_CONFIG 1200 = ⌊fmul MAT_CONFIG.totalWidth 1200⌋) :=
  ⟨⟨by decide, by decide, by decide, by decide, by decide⟩,
    canvasDims_truncate MAT_CONFIG 1200 (by decide) (by decide) (by decide)
      (by decide) (by decide)⟩

/-- C8: `generate()` runs the passes in a fixed order in which the border
pass comes after every tick and label pass, the fiducial pass is last
(so no later pass can occlude a marker), and every generation run
executes exactly this pass list. -/
theorem generate_pass_order :
    generatePasses.getLast? = some Pass.arucoMarkers ∧
    generatePasses.indexOf Pass.border > generatePasses.indexOf Pass.takeoffZoneScales ∧
    generatePasses.indexOf Pass.border > generatePasses.indexOf Pass.precisionZoneScales ∧
    generatePasses.indexOf Pass.border > generatePasses.indexOf Pass.simplifiedLabels ∧
    generatePasses.indexOf Pass.arucoMarkers = generatePasses.length - 1 ∧
    generatePasses.all
      (fun p => generatePasses.indexOf p ≤ generatePasses.indexOf Pass.arucoMarkers) = true ∧
    (∀ cfg ppm, ∃ s, generate cfg ppm = Except.ok s ∧ s.passes = generatePasses) :=
  ⟨by decide, by decide, by decide, by decide, by decide, by decide,
    fun cfg ppm => ⟨_, rfl, rfl⟩⟩

/-- C9 counterexample: `badConfig` is malformed (negative fine spacing,
reversed landing-zone boundaries), yet generation does not fail: it
returns a surface and runs all six drawing passes - the source performs
no configuration validation at all. -/
theorem generate_accepts_malformed :
    isMalformed badConfig ∧
    generate badConfig 1200 ≠ Except.error ConfigError.invalidConfig ∧
    generate badConfig 1200 = Except.ok ⟨3960, 1080, generatePasses⟩ := by
  refine ⟨by decide, fun h => Except.noConfusion h, ?_⟩
  show (Except.ok ⟨canvasWidthPx badConfig 1200, canvasHeightPx badConfig 1200,
      generatePasses⟩ : Except ConfigError Surface) =
    Except.ok ⟨3960, 1080, generatePasses⟩
  have hw : canvasWidthPx badConfig 1200 = 3960 := by decide
  have hh : canvasHeightPx badConfig 1200 = 1080 := by decide
  rw [hw, hh]

/-- C9 (amended): generation never fails - there is no validation step,
and every configuration, malformed ones included, proceeds through all
drawing passes to a surface. -/
theorem generate_no_validation (cfg : MatConfig) (ppm : ℚ) (h : isMalformed cfg) :
    ∃ s, generate cfg ppm = Except.ok s ∧ s.passes = generatePasses :=
  ⟨_, rfl, rfl⟩

theorem generate_no_validation_witness :
    isMalformed badConfig ∧
    (∃ s, generate badConfig 1200 = Except.ok s ∧ s.passes = generatePasses) :=
  ⟨by decide, generate_no_validation badConfig 1200 (by decide)⟩

/-- C10: for every negative id that is not a multiple of the dictionary
size 12, the `%`-reduced index is negative, the dictionary lookup yields
`undefined`, and reading the pattern's cells faults - the no-error
wrap-around holds only for non-negative ids. -/
theorem marker_negative_id_faults (id : ℤ) (S B : ℚ) (hneg : id < 0)
    (hnd : ¬(12:ℤ) ∣ id) :
    createArucoMarker id S B = none := by
  have hmod : jsModInt id ((ARUCO_DICT_4X4_50.length : ℕ) : ℤ) < 0 := by
    show Int.tmod id 12 < 0
    exact tmod_neg_of_neg_not_dvd hneg hnd
  unfold createArucoMarker jsArrayGet
  rw [if_neg (not_le.mpr hmod)]
  rfl

theorem marker_negative_id_faults_witness :
    ((-1:ℤ) < 0 ∧ ¬(12:ℤ) ∣ (-1)) ∧ createArucoMarker (-1) 6 0 = none :=
  ⟨⟨by decide, by decide⟩, marker_negative_id_faults (-1) 6 0 (by decide) (by decide)⟩

/-- C4: `createArucoMarker(id, S, B)` yields a square patch of side
`S + 2*B`: the outer ring of width `B` is solid light (vacuous when
`B = 0`), the outermost sixth of the core square is a solid dark border
ring, and each interior 4x4 grid cell of width `S/6` is dark exactly
where the dictionary bit of the id's pattern is 1. -/
theorem marker_geometry (id : ℤ) (size borderSize : ℚ) (pattern : List (List ℕ))
    (hS : 0 < size) (hB : 0 ≤ borderSize)
    (hpat : jsArrayGet ARUCO_DICT_4X4_50
      (jsModInt id (ARUCO_DICT_4X4_50.length : ℤ)) = some pattern) :
    ∃ M, createArucoMarker id size borderSize = some M ∧
      M.side = size + 2 * borderSize ∧
      (∀ p, inQuietRing size borderSize p → M.img p = false) ∧
      (∀ p, inBorderRing size borderSize p → M.img p = true) ∧
      (∀ row col : ℕ, row < 4 → col < 4 → ∀ p, inDataCell size borderSize row col p →
        M.img p = patternBit pattern row col) := by
  have hc : 0 < size / 6 := by positivity
  have hS6 : size = 6 * (size / 6) := by ring
  refine ⟨⟨size + borderSize * 2, paintFrom (markerOps pattern size borderSize) false⟩,
    ?_, by ring, ?_, ?_, ?_⟩
  · unfold createArucoMarker
    rw [hpat]
    rfl
  · -- quiet ring
    rintro p ⟨hin, hout⟩
    obtain ⟨hx0, hx1, hy0, hy1⟩ := hin
    show paintFrom (dataCellOps pattern size borderSize)
      (if (Rect.mk (borderSize + size / 6) (borderSize + size / 6)
            (size - size / 6 * 2) (size - size / 6 * 2)).contains p then false
       else if (Rect.mk borderSize borderSize size size).contains p then true
       else if (Rect.mk 0 0 (size + borderSize * 2) (size + borderSize * 2)).contains p
         then false else false) p = false
    have hnInner : ¬(Rect.mk (borderSize + size / 6) (borderSize + size / 6)
        (size - size / 6 * 2) (size - size / 6 * 2)).contains p := by
      rintro ⟨i1, i2, i3, i4⟩
      rcases hout with h | h | h | h <;> linarith
    have hnCore : ¬(Rect.mk borderSize borderSize size size).contains p := by
      rintro ⟨i1, i2, i3, i4⟩
      rcases hout with h | h | h | h <;> linarith
    have hBg : (Rect.mk 0 0 (size + borderSize * 2) (size + borderSize * 2)).contains p := by
      unfold Rect.contains
      dsimp only
      exact ⟨hx0, by linarith, hy0, by linarith⟩
    rw [if_neg hnInner, if_neg hnCore, if_pos hBg]
    refine paintFrom_of_not_contains _ _ ?_
    intro op hop
    obtain ⟨row, col, hrow, hcol, rfl⟩ := mem_dataCellOps.mp hop
    intro hcont
    obtain ⟨⟨c1, c2⟩, ⟨c3, c4⟩⟩ := cellRect_contains_bounds hS hrow hcol hcont
    rcases hout with h | h | h | h <;> linarith
  · -- dark border ring
    rintro p ⟨hin, hout⟩
    obtain ⟨hx0, hx1, hy0, hy1⟩ := hin
    show paintFrom (dataCellOps pattern size borderSize)
      (if (Rect.mk (borderSize + size / 6) (borderSize + size / 6)
            (size - size / 6 * 2) (size - size / 6 * 2)).contains p then false
       else if (Rect.mk borderSize borderSize size size).contains p then true
       else if (Rect.mk 0 0 (size + borderSize * 2) (size + borderSize * 2)).contains p
         then false else false) p = true
    have hnInner : ¬(Rect.mk (borderSize + size / 6) (borderSize + size / 6)
        (size - size / 6 * 2) (size - size / 6 * 2)).contains p := by
      rintro ⟨i1, i2, i3, i4⟩
      rcases hout with h | h | h | h <;> linarith
    have hCore : (Rect.mk borderSize borderSize size size).contains p := by
      unfold Rect.contains
      dsimp only
      exact ⟨hx0, by linarith, hy0, by linarith⟩
    rw [if_neg hnInner, if_pos hCore]
    refine paintFrom_of_not_contains _ _ ?_
    intro op hop
    obtain ⟨row, col, hrow, hcol, rfl⟩ := mem_dataCellOps.mp hop
    intro hcont
    obtain ⟨⟨c1, c2⟩, ⟨c3, c4⟩⟩ := cellRect_contains_bounds hS hrow hcol hcont
    rcases hout with h | h | h | h <;> linarith
  · -- data cells
    intro row col hrow hcol p hp
    show paintFrom (dataCellOps pattern size borderSize)
      (if (Rect.mk (borderSize + size / 6) (borderSize + size / 6)
            (size - size / 6 * 2) (size - size / 6 * 2)).contains p then false
       else if (Rect.mk borderSize borderSize size size).contains p then true
       else if (Rect.mk 0 0 (size + borderSize * 2) (size + borderSize * 2)).contains p
         then false else false) p = patternBit pattern row col
    refine paintFrom_eq_of_mem _ _ (cellRect size borderSize row col,
      patternBit pattern row col) (mem_dataCellOps.mpr ⟨row, col, hrow, hcol, rfl⟩)
      hp rfl ?_
    intro q hq hqc
    obtain ⟨r2, c2, hr2, hc2, rfl⟩ := mem_dataCellOps.mp hq
    obtain ⟨hre, hce⟩ := cellRect_inj hS hqc hp
    rw [hre, hce]

theorem marker_geometry_witness :
    ((0:ℚ) < 6 ∧ (0:ℚ) ≤ 1 ∧
      jsArrayGet ARUCO_DICT_4X4_50 (jsModInt 0 (ARUCO_DICT_4X4_50.length : ℤ)) =
        some [[0, 0, 0, 0], [0, 1, 0, 1], [1, 1, 0, 0], [0, 1, 1, 1]]) ∧
    (∃ M, createArucoMarker 0 6 1 = some M ∧
      M.side = 6 + 2 * 1 ∧
      (∀ p, inQuietRing 6 1 p → M.img p = false) ∧
      (∀ p, inBorderRing 6 1 p → M.img p = true) ∧
      (∀ row col : ℕ, row < 4 → col < 4 → ∀ p, inDataCell 6 1 row col p →
        M.img p = patternBit [[0, 0, 0, 0], [0, 1, 0, 1], [1, 1, 0, 0], [0, 1, 1, 1]] row col)) :=
  ⟨⟨by decide, by decide, by decide⟩,
    marker_geometry 0 6 1 [[0, 0, 0, 0], [0, 1, 0, 1], [1, 1, 0, 0], [0, 1, 1, 1]]
      (by decide) (by decide) (by decide)⟩

end CarpetDemo
